import Mathlib

/-!
Shallow embedding of the `ChatService` class of the llama.cpp standalone web UI
(`src/lib/services/chat.ts`), covering request building, the SSE stream decoder
with its `<think>`-tag scanner, tool-call delta merging, the non-streaming
response handler, the 400-compatibility retry loop, the timing-estimation
fallback and the abort-controller tracking map.

JavaScript strings are modelled as `List Char`; `undefined`/`null` become
`Option`; JS truthiness of a string is "present and non-empty"; machine
numbers that matter to the claims (token counts, millisecond timestamps,
`max_tokens` sentinels) are `Nat`/`Int`.  `JSON.parse` is abstracted as a
function parameter, universally quantified in the theorems.
-/

set_option maxHeartbeats 1000000
set_option maxRecDepth 4000

namespace WebuiChat

/-- JavaScript strings, modelled as lists of characters. -/
abbrev Str := List Char

/-- Convert a Lean string literal to the `Str` model. -/
def str (s : String) : Str := s.toList

/-- JS truthiness of an optional string: present and non-empty. -/
def truthyOpt (o : Option Str) : Bool :=
  match o with
  | some s => !s.isEmpty
  | none => false

/-- JS `a || b` on two optional strings (empty string is falsy). -/
def jsOrOpt (a b : Option Str) : Option Str :=
  if truthyOpt a then a else b

/-- `String.prototype.trim`: strip leading and trailing whitespace. -/
def trimStr (s : Str) : Str :=
  ((s.dropWhile Char.isWhitespace).reverse.dropWhile Char.isWhitespace).reverse

/-- Index of the first occurrence of `pat` in `s` (JS `String.indexOf`). -/
def findSub : Str → Str → Option Nat
  | s, pat =>
    if pat.isPrefixOf s then some 0
    else
      match s with
      | [] => none
      | _ :: t => (findSub t pat).map (· + 1)

/-- JS `String.includes`. -/
def containsSub (s pat : Str) : Bool := (findSub s pat).isSome

/-- Worker for `splitOnSub`; the separator `a :: sepRest` is non-empty. -/
def splitOnSubGo (a : Char) (sepRest : Str) : Str → List Str
  | [] => [ [] ]
  | c :: t =>
    if (a :: sepRest).isPrefixOf (c :: t) then
      [] :: splitOnSubGo a sepRest (t.drop sepRest.length)
    else
      match splitOnSubGo a sepRest t with
      | [] => [ [c] ]
      | h :: r => (c :: h) :: r
termination_by s => s.length
decreasing_by
  · simp only [List.length_cons, List.length_drop]; omega
  · simp only [List.length_cons]; omega

/-- JS `String.prototype.split` with a string separator (all occurrences). -/
def splitOnSub (s sep : Str) : List Str :=
  match sep with
  | [] => [s]
  | a :: sepRest => splitOnSubGo a sepRest s

/-- `String.prototype.split('<think>')`, specialized to its constant
separator so that it computes by structural recursion. -/
def splitOnThinkOpen : Str → List Str
  | '<' :: 't' :: 'h' :: 'i' :: 'n' :: 'k' :: '>' :: rest =>
    [] :: splitOnThinkOpen rest
  | [] => [ [] ]
  | c :: t =>
    match splitOnThinkOpen t with
    | [] => [ [c] ]
    | h :: r => (c :: h) :: r

/-- `String.prototype.split('</think>')`, specialized to its constant
separator. -/
def splitOnThinkClose : Str → List Str
  | '<' :: '/' :: 't' :: 'h' :: 'i' :: 'n' :: 'k' :: '>' :: rest =>
    [] :: splitOnThinkClose rest
  | [] => [ [] ]
  | c :: t =>
    match splitOnThinkClose t with
    | [] => [ [c] ]
    | h :: r => (c :: h) :: r

/-- The `<think>` opening tag. -/
def openTagL : Str := str "<think>"

/-- The `</think>` closing tag. -/
def closeTagL : Str := str "</think>"

/-- Full matches of the regex `/<think>([\s\S]*?)<\/think>/g`: each match is
the opening tag, the lazily-matched inner text, and the closing tag. -/
def thinkSpans : Str → List Str
  | [] => []
  | c :: t =>
    if openTagL.isPrefixOf (c :: t) then
      match findSub (t.drop 6) closeTagL with
      | none => []
      | some j =>
        (openTagL ++ (t.drop 6).take j ++ closeTagL) ::
          thinkSpans ((t.drop 6).drop (j + 8))
    else thinkSpans t
termination_by s => s.length
decreasing_by
  · simp only [List.length_cons, List.length_drop]; omega
  · simp only [List.length_cons]; omega

/-- `content.replace(thinkRegex, '')`: remove every `<think>...</think>` span. -/
def removeThinkSpans : Str → Str
  | [] => []
  | c :: t =>
    if openTagL.isPrefixOf (c :: t) then
      match findSub (t.drop 6) closeTagL with
      | none => c :: t
      | some j => removeThinkSpans ((t.drop 6).drop (j + 8))
    else c :: removeThinkSpans t
termination_by s => s.length
decreasing_by
  · simp only [List.length_cons, List.length_drop]; omega
  · simp only [List.length_cons]; omega

/-- `match.replace(/<\/?think>/g, '')`: delete every `<think>` / `</think>`
token from a string. -/
def stripThinkTokens : Str → Str
  | [] => []
  | c :: t =>
    if openTagL.isPrefixOf (c :: t) then stripThinkTokens (t.drop 6)
    else if closeTagL.isPrefixOf (c :: t) then stripThinkTokens (t.drop 7)
    else c :: stripThinkTokens t
termination_by s => s.length
decreasing_by
  · simp only [List.length_cons, List.length_drop]; omega
  · simp only [List.length_cons, List.length_drop]; omega
  · simp only [List.length_cons]; omega

/-- `ChatService.parseThinkTags` (chat.ts lines 119-136): extract reasoning
from `<think>` tags; when no complete span exists the content is returned
unchanged with `null` reasoning. -/
def parseThinkTags (content : Str) : Str × Option Str :=
  let ms := thinkSpans content
  if ms.isEmpty then (content, none)
  else
    (trimStr (removeThinkSpans content),
     some (List.intercalate (str "\n\n")
       (ms.map (fun m => trimStr (stripThinkTokens m)))))

/-- Incremental SSE line splitting: `chunk.split('\n')` followed by
`chunk = lines.pop()`.  Returns (complete lines, trailing partial line). -/
def splitLines : Str → List Str × Str
  | [] => ([], [])
  | c :: s =>
    let p := splitLines s
    if c = '\n' then ([] :: p.1, p.2)
    else
      match p.1 with
      | [] => ([], c :: p.2)
      | h :: t => ((c :: h) :: t, p.2)

/-- `timings` object of a llama.cpp chunk (type `ChatMessageTimings`). -/
structure Timings where
  prompt_n : Option Nat := none
  prompt_ms : Option Nat := none
  predicted_n : Option Nat := none
  predicted_ms : Option Nat := none
  cache_n : Option Nat := none
deriving DecidableEq

/-- `prompt_progress` object of a llama.cpp chunk. -/
structure PromptProgress where
  processed : Option Nat := none
  total : Option Nat := none
deriving DecidableEq

/-- `usage` object: aggregate token counts. -/
structure Usage where
  prompt_tokens : Option Nat := none
  completion_tokens : Option Nat := none
  total_tokens : Option Nat := none
deriving DecidableEq

/-- The `function` part of a (possibly partial) tool call. -/
structure ToolCallFunction where
  name : Option Str := none
  arguments : Option Str := none
deriving DecidableEq

/-- An accumulated tool call (`ApiChatCompletionToolCall`). -/
structure ToolCall where
  id : Option Str := none
  type : Option Str := none
  function : Option ToolCallFunction := none
deriving DecidableEq

/-- A streamed tool-call fragment (`ApiChatCompletionToolCallDelta`);
`index = none` models a non-number index. -/
structure ToolCallDelta where
  index : Option Int := none
  id : Option Str := none
  type : Option Str := none
  function : Option ToolCallFunction := none
deriving DecidableEq

/-- A `delta` (streaming) or `message` (non-streaming) object of a choice. -/
structure ChoiceMessage where
  content : Option Str := none
  reasoning : Option Str := none
  reasoning_content : Option Str := none
  model : Option Str := none
  tool_calls : Option (List ToolCallDelta) := none
deriving DecidableEq

/-- One element of `choices`. -/
structure Choice where
  delta : Option ChoiceMessage := none
  message : Option ChoiceMessage := none
  finish_reason : Option Str := none
deriving DecidableEq

/-- A parsed chunk (`ApiChatCompletionStreamChunk`) or full response
(`ApiChatCompletionResponse`): the result of `JSON.parse` on a data line or
response body. -/
structure ApiPayload where
  object : Option Str := none
  model : Option Str := none
  choices : List Choice := []
  timings : Option Timings := none
  prompt_progress : Option PromptProgress := none
  usage : Option Usage := none
deriving DecidableEq

/-- `getTrimmedString` helper of `extractModelName` (chat.ts lines 1130-1132):
a string value that is non-blank after trimming, trimmed. -/
def getTrimmedString (v : Option Str) : Option Str :=
  match v with
  | some s => if !(trimStr s).isEmpty then some (trimStr s) else none
  | none => none

/-- `ChatService.extractModelName` (chat.ts lines 1123-1154): top-level
`model`, else `choices[0].delta.model`, else `choices[0].message.model`. -/
def extractModelName (data : ApiPayload) : Option Str :=
  match getTrimmedString data.model with
  | some m => some m
  | none =>
    match data.choices.head? with
    | none => none
    | some c =>
      match getTrimmedString (c.delta.bind (fun d => d.model)) with
      | some m => some m
      | none => getTrimmedString (c.message.bind (fun m => m.model))

/-- A fresh accumulator slot, `{ function: undefined }`. -/
def emptyToolCall : ToolCall := {}

/-- The body of the `for (const delta of deltas)` loop of
`ChatService.mergeToolCallDeltas` (chat.ts lines 760-793): resolve the target
index, pad the list, and merge one delta additively. -/
def applyToolCallDelta (result : List ToolCall) (delta : ToolCallDelta)
    (indexOffset : Nat) : List ToolCall :=
  let index : Nat :=
    match delta.index with
    | some i => if 0 ≤ i then i.toNat + indexOffset else result.length
    | none => result.length
  let padded := result ++ List.replicate (index + 1 - result.length) emptyToolCall
  let target := padded.getD index emptyToolCall
  let target := if truthyOpt delta.id then { target with id := delta.id } else target
  let target := if truthyOpt delta.type then { target with type := delta.type } else target
  let target :=
    match delta.function with
    | none => target
    | some df =>
      let fn := target.function.getD {}
      let fn := if truthyOpt df.name then { fn with name := df.name } else fn
      let fn :=
        match df.arguments with
        | some a =>
          if !a.isEmpty then
            { fn with arguments := some (fn.arguments.getD [] ++ a) }
          else fn
        | none => fn
      { target with function := some fn }
  padded.set index target

/-- `ChatService.mergeToolCallDeltas` (chat.ts lines 750-796).  The shallow
copy of `existing` made by the source is the identity under value semantics. -/
def mergeToolCallDeltas (existing : List ToolCall)
    (deltas : List ToolCallDelta) (indexOffset : Nat) : List ToolCall :=
  deltas.foldl (fun acc d => applyToolCallDelta acc d indexOffset) existing

/-- A callback invocation observable by the caller (or the shared processing
side channel).  Tool-call payloads are recorded as the structured list that
`JSON.stringify` would serialize. -/
inductive StreamEvent where
  | chunk (s : Str)
  | reasoningChunk (s : Str)
  | toolCallChunk (calls : List ToolCall)
  | modelName (s : Str)
  | firstValidChunk
  | processing (timings : Option Timings) (progress : Option PromptProgress)
  | complete (content : Str) (reasoning : Option Str) (timings : Option Timings)
      (toolCalls : Option (List ToolCall))
  | errorEvent (msg : Str)
deriving DecidableEq

/-- The per-request mutable state of `ChatService.handleStreamResponse`
(chat.ts lines 516-531), plus the event log and a clock indexing the
environment polls. -/
structure StreamState where
  aggregatedContent : Str := []
  fullReasoningContent : Str := []
  aggregatedToolCalls : List ToolCall := []
  lastTimings : Option Timings := none
  streamFinished : Bool := false
  modelEmitted : Bool := false
  firstValidChunkEmitted : Bool := false
  toolCallIndexOffset : Nat := 0
  hasOpenToolCallBatch : Bool := false
  thinkBuffer : Str := []
  insideThinkTag : Bool := false
  startTime : Nat := 0
  firstTokenTime : Option Nat := none
  usageData : Option Usage := none
  events : List StreamEvent := []

/-- External environment of one streaming run: the value of
`abortSignal?.aborted` at the n-th poll and of `Date.now()` at the n-th
clock read.  Both consume the same counter; quantifying over arbitrary
functions covers every abort/timing behaviour. -/
structure StreamEnv where
  polls : Nat → Bool
  now : Nat → Nat

/-- The shared poll/clock counter lives beside the state. -/
structure StreamCtx where
  st : StreamState := {}
  clock : Nat := 0

/-- Read `abortSignal?.aborted` once. -/
def pollAborted (env : StreamEnv) (c : StreamCtx) : Bool × StreamCtx :=
  (env.polls c.clock, { c with clock := c.clock + 1 })

/-- Read `Date.now()` once. -/
def dateNow (env : StreamEnv) (c : StreamCtx) : Nat × StreamCtx :=
  (env.now c.clock, { c with clock := c.clock + 1 })

/-- Record one callback invocation. -/
def emit (c : StreamCtx) (e : StreamEvent) : StreamCtx :=
  { c with st := { c.st with events := c.st.events ++ [e] } }

/-- `finalizeOpenToolCallBatch` (chat.ts lines 533-540). -/
def finalizeOpenToolCallBatch (c : StreamCtx) : StreamCtx :=
  if c.st.hasOpenToolCallBatch then
    { c with st := { c.st with
        toolCallIndexOffset := c.st.aggregatedToolCalls.length
        hasOpenToolCallBatch := false } }
  else c

/-- `processToolCallDelta` (chat.ts lines 542-568).  `JSON.stringify` of an
array is always truthy, so the serialization guard never fires. -/
def processToolCallDelta (env : StreamEnv) (c : StreamCtx)
    (toolCalls : Option (List ToolCallDelta)) : StreamCtx :=
  match toolCalls with
  | none => c
  | some tcs =>
    if tcs.isEmpty then c
    else
      let c := { c with st := { c.st with
        aggregatedToolCalls :=
          mergeToolCallDeltas c.st.aggregatedToolCalls tcs c.st.toolCallIndexOffset } }
      if c.st.aggregatedToolCalls.isEmpty then c
      else
        let c := { c with st := { c.st with hasOpenToolCallBatch := true } }
        let (ab, c) := pollAborted env c
        if !ab then emit c (.toolCallChunk c.st.aggregatedToolCalls) else c

/-- The guarded visible-content emission
`if (x && !abortSignal?.aborted) { onChunk?.(x); aggregatedContent += x; }`
used at chat.ts lines 649-652 and 673-676. -/
def emitVisibleGuarded (env : StreamEnv) (c : StreamCtx) (s : Str) : StreamCtx :=
  if !s.isEmpty then
    let (ab, c) := pollAborted env c
    if !ab then
      let c := emit c (.chunk s)
      { c with st := { c.st with aggregatedContent := c.st.aggregatedContent ++ s } }
    else c
  else c

/-- The guarded reasoning emission
`if (x && !abortSignal?.aborted) { onReasoningChunk?.(x); fullReasoningContent += x; }`
used at chat.ts lines 663-666. -/
def emitReasoningGuarded (env : StreamEnv) (c : StreamCtx) (s : Str) : StreamCtx :=
  if !s.isEmpty then
    let (ab, c) := pollAborted env c
    if !ab then
      let c := emit c (.reasoningChunk s)
      { c with st := { c.st with
          fullReasoningContent := c.st.fullReasoningContent ++ s } }
    else c
  else c

/-- Processing of one visible-content delta: the `<think>`-tag scanner of
`ChatService.handleStreamResponse` (chat.ts lines 637-687), including the
guard `if (content)` and the preceding `finalizeOpenToolCallBatch()` call. -/
def processContent (env : StreamEnv) (c0 : StreamCtx) (content : Str) : StreamCtx :=
  if content.isEmpty then c0
  else
    let c := finalizeOpenToolCallBatch c0
    let c := { c with st := { c.st with thinkBuffer := c.st.thinkBuffer ++ content } }
    -- check for the <think> opening tag
    let c :=
      if containsSub c.st.thinkBuffer openTagL && !c.st.insideThinkTag then
        let parts := splitOnThinkOpen c.st.thinkBuffer
        let c := { c with st := { c.st with insideThinkTag := true } }
        let c := emitVisibleGuarded env c (parts.getD 0 [])
        { c with st := { c.st with thinkBuffer := parts.getD 1 [] } }
      else c
    -- check for the </think> closing tag
    if c.st.insideThinkTag && containsSub c.st.thinkBuffer closeTagL then
      let parts := splitOnThinkClose c.st.thinkBuffer
      let c := emitReasoningGuarded env c (parts.getD 0 [])
      let c := { c with st := { c.st with thinkBuffer := [], insideThinkTag := false } }
      emitVisibleGuarded env c (parts.getD 1 [])
    else if c.st.insideThinkTag then c
    else
      let c := { c with st := { c.st with aggregatedContent := c.st.aggregatedContent ++ content } }
      let (ab, c) := pollAborted env c
      if !ab then emit c (.chunk content) else c

/-- Processing of a provider-supplied reasoning delta (chat.ts lines 689-695);
called under the guard `if (reasoningContent)`. -/
def processReasoning (env : StreamEnv) (c : StreamCtx) (rc : Str) : StreamCtx :=
  let c := finalizeOpenToolCallBatch c
  let c := { c with st := { c.st with
    fullReasoningContent := c.st.fullReasoningContent ++ rc } }
  let (ab, c) := pollAborted env c
  if !ab then emit c (.reasoningChunk rc) else c

/-- One-time first-valid-chunk notification (chat.ts lines 597-603). -/
def processFirstValid (env : StreamEnv) (c : StreamCtx) (parsed : ApiPayload) : StreamCtx :=
  if !c.st.firstValidChunkEmitted &&
      parsed.object == some (str "chat.completion.chunk") then
    let c := { c with st := { c.st with firstValidChunkEmitted := true } }
    let (ab, c) := pollAborted env c
    if !ab then emit c .firstValidChunk else c
  else c

/-- One-time model report (chat.ts lines 614-618); not abort-guarded. -/
def processModel (c : StreamCtx) (parsed : ApiPayload) : StreamCtx :=
  match extractModelName parsed with
  | some m =>
    if !c.st.modelEmitted then
      emit { c with st := { c.st with modelEmitted := true } } (.modelName m)
    else c
  | none => c

/-- First-token-time capture (chat.ts lines 620-623). -/
def processFirstToken (env : StreamEnv) (c : StreamCtx)
    (content reasoningContent : Option Str) : StreamCtx :=
  if (truthyOpt content || truthyOpt reasoningContent) && c.st.firstTokenTime.isNone then
    let (t, c) := dateNow env c
    { c with st := { c.st with firstTokenTime := some t } }
  else c

/-- Usage capture from a chunk that also carries a finish reason
(chat.ts lines 625-628). -/
def processUsageCapture (c : StreamCtx) (parsed : ApiPayload)
    (finishReason : Option Str) : StreamCtx :=
  if parsed.usage.isSome && truthyOpt finishReason then
    { c with st := { c.st with usageData := parsed.usage } }
  else c

/-- Timings / prompt-progress side channel (chat.ts lines 630-635). -/
def processTimingsChannel (c : StreamCtx) (parsed : ApiPayload) : StreamCtx :=
  if parsed.timings.isSome || parsed.prompt_progress.isSome then
    let c := emit c (.processing parsed.timings parsed.prompt_progress)
    match parsed.timings with
    | some t => { c with st := { c.st with lastTimings := some t } }
    | none => c
  else c

/-- Processing of one successfully parsed stream chunk
(chat.ts lines 595-697). -/
def processParsed (env : StreamEnv) (c : StreamCtx) (parsed : ApiPayload) : StreamCtx :=
  let c := processFirstValid env c parsed
  let delta := parsed.choices.head?.bind (fun ch => ch.delta)
  let content := delta.bind (fun d => d.content)
  let reasoningContent :=
    jsOrOpt (delta.bind (fun d => d.reasoning)) (delta.bind (fun d => d.reasoning_content))
  let toolCalls := delta.bind (fun d => d.tool_calls)
  let finishReason := parsed.choices.head?.bind (fun ch => ch.finish_reason)
  let c := processModel c parsed
  let c := processFirstToken env c content reasoningContent
  let c := processUsageCapture c parsed finishReason
  let c := processTimingsChannel c parsed
  let c := processContent env c (content.getD [])
  let c :=
    match reasoningContent with
    | some rc => if !rc.isEmpty then processReasoning env c rc else c
    | none => c
  processToolCallDelta env c toolCalls

/-- Processing of one complete SSE line (chat.ts lines 587-701): only
`data: ` lines are considered, `data: [DONE]` finishes the stream, and JSON
parse failures are swallowed. -/
def processLine (parse : Str → Option ApiPayload) (env : StreamEnv)
    (c : StreamCtx) (line : Str) : StreamCtx :=
  if (str "data: ").isPrefixOf line then
    let data := line.drop 6
    if data = str "[DONE]" then
      { c with st := { c.st with streamFinished := true } }
    else
      match parse data with
      | some parsed => processParsed env c parsed
      | none => c
  else c

/-- The `for (const line of lines)` loop (chat.ts lines 584-702) with its
per-line abort check. -/
def processLinesLoop (parse : Str → Option ApiPayload) (env : StreamEnv) :
    StreamCtx → List Str → StreamCtx
  | c, [] => c
  | c, l :: ls =>
    let (ab, c) := pollAborted env c
    if ab then c
    else processLinesLoop parse env (processLine parse env c l) ls

/-- The `while (true)` read loop (chat.ts lines 572-705): reassemble lines
across reads, keeping the trailing partial line in `buffer`. -/
def loopChunks (parse : Str → Option ApiPayload) (env : StreamEnv) :
    StreamCtx → Str → List Str → StreamCtx
  | c, _, [] =>
    -- loop-top abort check, then `reader.read()` reports done
    let (_, c) := pollAborted env c
    c
  | c, buffer, chunk :: rest =>
    let (ab1, c) := pollAborted env c
    if ab1 then c
    else
      let (ab2, c) := pollAborted env c
      if ab2 then c
      else
        let p := splitLines (buffer ++ chunk)
        let c := processLinesLoop parse env c p.1
        let (ab3, c) := pollAborted env c
        if ab3 then c
        else loopChunks parse env c p.2 rest

/-- Timing estimation from usage data in the streaming path
(chat.ts lines 716-727); `Math.floor(totalMs * 0.1)` and
`Math.floor(totalMs * 0.9)` are exact natural divisions for the
integral millisecond counts involved. -/
def deriveStreamTimings (u : Usage) (startTime : Nat) (firstTokenTime : Option Nat)
    (endTime : Nat) : Timings :=
  let totalMs := endTime - startTime
  let promptMs :=
    match firstTokenTime with
    | some f => f - startTime
    | none => totalMs / 10
  let predictedMs :=
    match firstTokenTime with
    | some f => endTime - f
    | none => totalMs * 9 / 10
  { prompt_n := u.prompt_tokens
    prompt_ms := some promptMs
    predicted_n := u.completion_tokens
    predicted_ms := some predictedMs }

/-- `ChatService.handleStreamResponse` (chat.ts lines 492-748) over a list of
decoded reads: run the read loop, then finalize only on a clean `[DONE]`. -/
def runStream (parse : Str → Option ApiPayload) (env : StreamEnv)
    (chunks : List Str) : StreamCtx :=
  let c0 : StreamCtx := {}
  let (t0, c0) := dateNow env c0
  let c0 := { c0 with st := { c0.st with startTime := t0 } }
  let c1 := loopChunks parse env c0 [] chunks
  let (ab, c1) := pollAborted env c1
  if ab then c1
  else if c1.st.streamFinished then
    let c := finalizeOpenToolCallBatch c1
    let finalToolCalls :=
      if !c.st.aggregatedToolCalls.isEmpty then some c.st.aggregatedToolCalls else none
    let c :=
      if c.st.usageData.isSome && c.st.lastTimings.isNone then
        let (endT, c) := dateNow env c
        { c with st := { c.st with
            lastTimings := some (deriveStreamTimings (c.st.usageData.getD {})
              c.st.startTime c.st.firstTokenTime endT) } }
      else c
    emit c (.complete c.st.aggregatedContent
      (if !c.st.fullReasoningContent.isEmpty then some c.st.fullReasoningContent else none)
      c.st.lastTimings finalToolCalls)
  else c1

/-- The error message thrown for an empty or contentless response
(chat.ts lines 825 and 867). -/
def noResponseMsg : Str := str "No response received from server. Please try again."

/-- Timing estimation from usage data in the non-streaming path
(chat.ts lines 874-885): a fixed 10 percent / 90 percent split of the
wall-clock total. -/
def deriveNonStreamTimings (u : Usage) (startTime endTime : Nat) : Timings :=
  let totalMs := endTime - startTime
  { prompt_n := u.prompt_tokens
    prompt_ms := some (totalMs / 10)
    predicted_n := u.completion_tokens
    predicted_ms := some (totalMs * 9 / 10) }

/-- `ChatService.handleNonStreamResponse` (chat.ts lines 808-900).
`JSON.parse` is the `parse` parameter (an `Except` carrying the thrown
message on failure); `startTime` is `none` when absent or zero (falsy).
Returns the callback log and either the content or the thrown error. -/
def handleNonStreamResponse (parse : Str → Except Str ApiPayload)
    (responseText : Str) (startTime : Option Nat) (endTime : Nat) :
    List StreamEvent × Except Str Str :=
  if (trimStr responseText).isEmpty then
    ([.errorEvent noResponseMsg], .error noResponseMsg)
  else
    match parse responseText with
    | .error e => ([.errorEvent e], .error e)
    | .ok data =>
      let events : List StreamEvent :=
        match extractModelName data with
        | some m => [.modelName m]
        | none => []
      let message := data.choices.head?.bind (fun ch => ch.message)
      let content0 := (message.bind (fun m => m.content)).getD []
      let rc0 :=
        jsOrOpt (message.bind (fun m => m.reasoning))
          (message.bind (fun m => m.reasoning_content))
      let toolCalls := message.bind (fun m => m.tool_calls)
      let parsedPair : Str × Option Str :=
        if !content0.isEmpty && !truthyOpt rc0 then
          let p := parseThinkTags content0
          (p.1, jsOrOpt p.2 rc0)
        else (content0, rc0)
      let content1 := parsedPair.1
      let rc1 := parsedPair.2
      let tcPair : List StreamEvent × Option (List ToolCall) :=
        match toolCalls with
        | some tcs =>
          if tcs.length > 0 then
            let merged := mergeToolCallDeltas [] tcs 0
            if !merged.isEmpty then
              (events ++ [.toolCallChunk merged], some merged)
            else (events, none)
          else (events, none)
        | none => (events, none)
      let events := tcPair.1
      let serializedToolCalls := tcPair.2
      if (trimStr content1).isEmpty && serializedToolCalls.isNone then
        (events ++ [.errorEvent noResponseMsg], .error noResponseMsg)
      else
        let timings :=
          match data.usage, startTime with
          | some u, some stt => some (deriveNonStreamTimings u stt endTime)
          | _, _ => none
        (events ++ [.complete content1 rc1 timings serializedToolCalls], .ok content1)

/-- A chat message as placed on the wire (`role`/`content` projection of
chat.ts lines 225-228); attachment content parts are irrelevant to the
claims and folded into the content string. -/
structure ApiChatMessage where
  role : Str
  content : Str
deriving DecidableEq

/-- The option bag destructured by `sendMessage` (chat.ts lines 153-190).
Numeric parameters are modelled as `Int`; `max_tokens` and
`max_completion_tokens` distinguish `null` (`some none`) from a number.
The free-form `custom` JSON merge (chat.ts lines 283-290) is outside the
embedded fragment; every claim about the builder assumes it unset. -/
structure ChatOptions where
  stream : Option Bool := none
  temperature : Option Int := none
  max_tokens : Option (Option Int) := none
  max_completion_tokens : Option (Option Int) := none
  reasoning_effort : Option Str := none
  max_context : Option Int := none
  dynatemp_range : Option Int := none
  dynatemp_exponent : Option Int := none
  top_k : Option Int := none
  top_p : Option Int := none
  min_p : Option Int := none
  xtc_probability : Option Int := none
  xtc_threshold : Option Int := none
  typ_p : Option Int := none
  repeat_last_n : Option Int := none
  repeat_penalty : Option Int := none
  presence_penalty : Option Int := none
  frequency_penalty : Option Int := none
  dry_multiplier : Option Int := none
  dry_base : Option Int := none
  dry_allowed_length : Option Int := none
  dry_penalty_last_n : Option Int := none
  samplers : Option (Str ⊕ List Str) := none
  timings_per_token : Option Bool := none
deriving DecidableEq

/-- The settings consulted by the request builder. -/
structure AppConfig where
  modelSelectorEnabled : Bool := false
  activeModel : Option Str := none
  disableReasoningFormat : Bool := false
deriving DecidableEq

/-- The wire request object (`ApiChatCompletionRequest`).  A field is present
on the wire iff its `Option` is `some`; `extras` holds the names of any
further keys (only ever introduced by the free-form custom JSON merge). -/
structure RequestBody where
  messages : List ApiChatMessage := []
  stream : Option Bool := none
  model : Option Str := none
  reasoning_format : Option Str := none
  temperature : Option Int := none
  max_tokens : Option Int := none
  max_completion_tokens : Option Int := none
  reasoning_effort : Option Str := none
  max_context : Option Int := none
  dynatemp_range : Option Int := none
  dynatemp_exponent : Option Int := none
  top_k : Option Int := none
  top_p : Option Int := none
  min_p : Option Int := none
  xtc_probability : Option Int := none
  xtc_threshold : Option Int := none
  typ_p : Option Int := none
  repeat_last_n : Option Int := none
  repeat_penalty : Option Int := none
  presence_penalty : Option Int := none
  frequency_penalty : Option Int := none
  dry_multiplier : Option Int := none
  dry_base : Option Int := none
  dry_allowed_length : Option Int := none
  dry_penalty_last_n : Option Int := none
  samplers : Option (List Str) := none
  timings_per_token : Option Bool := none
  stop : Option (List Str) := none
  tools : Option (List Str) := none
  tool_choice : Option Str := none
  response_format : Option Str := none
  n : Option Int := none
  logit_bias : Option (List (Str × Int)) := none
  user : Option Str := none
  extras : List String := []
deriving DecidableEq

/-- `samplers.split(';').filter((s) => s.trim())` (chat.ts line 277). -/
def splitSamplers (s : Str) : List Str :=
  (splitOnSub s (str ";")).filter (fun x => !(trimStr x).isEmpty)

/-- Construction of `requestBody` in `ChatService.sendMessage`
(chat.ts lines 224-281): always `messages`/`stream`/`reasoning_format`,
`model` only with an active selector, every other parameter only when
defined. -/
def buildRequestBody (msgs : List ApiChatMessage) (o : ChatOptions)
    (cfg : AppConfig) : RequestBody :=
  let b : RequestBody := { messages := msgs, stream := o.stream }
  let b :=
    if cfg.modelSelectorEnabled && truthyOpt cfg.activeModel then
      { b with model := cfg.activeModel }
    else b
  let rf : Str := if cfg.disableReasoningFormat then str "none" else str "auto"
  let b := { b with reasoning_format := some rf }
  let b := match o.temperature with
    | some v => { b with temperature := some v }
    | none => b
  -- max_tokens priority (chat.ts lines 244-248): null or 0 become the -1
  -- sentinel; max_completion_tokens only as a defined non-zero non-sentinel
  let b := match o.max_tokens with
    | some mt =>
      let sentinel : Int := match mt with
        | some v => if v ≠ 0 then v else -1
        | none => -1
      { b with max_tokens := some sentinel }
    | none =>
      match o.max_completion_tokens with
      | some (some v) =>
        if v ≠ 0 && v ≠ -1 then { b with max_completion_tokens := some v } else b
      | _ => b
  let b := match o.reasoning_effort with
    | some r => if r ≠ str "none" then { b with reasoning_effort := some r } else b
    | none => b
  let b := match o.max_context with
    | some v => { b with max_context := some v }
    | none => b
  let b := match o.dynatemp_range with
    | some v => { b with dynatemp_range := some v }
    | none => b
  let b := match o.dynatemp_exponent with
    | some v => { b with dynatemp_exponent := some v }
    | none => b
  let b := match o.top_k with
    | some v => { b with top_k := some v }
    | none => b
  let b := match o.top_p with
    | some v => { b with top_p := some v }
    | none => b
  let b := match o.min_p with
    | some v => { b with min_p := some v }
    | none => b
  let b := match o.xtc_probability with
    | some v => { b with xtc_probability := some v }
    | none => b
  let b := match o.xtc_threshold with
    | some v => { b with xtc_threshold := some v }
    | none => b
  let b := match o.typ_p with
    | some v => { b with typ_p := some v }
    | none => b
  let b := match o.repeat_last_n with
    | some v => { b with repeat_last_n := some v }
    | none => b
  let b := match o.repeat_penalty with
    | some v => { b with repeat_penalty := some v }
    | none => b
  let b := match o.presence_penalty with
    | some v => { b with presence_penalty := some v }
    | none => b
  let b := match o.frequency_penalty with
    | some v => { b with frequency_penalty := some v }
    | none => b
  let b := match o.dry_multiplier with
    | some v => { b with dry_multiplier := some v }
    | none => b
  let b := match o.dry_base with
    | some v => { b with dry_base := some v }
    | none => b
  let b := match o.dry_allowed_length with
    | some v => { b with dry_allowed_length := some v }
    | none => b
  let b := match o.dry_penalty_last_n with
    | some v => { b with dry_penalty_last_n := some v }
    | none => b
  let b := match o.samplers with
    | some (.inl s) => { b with samplers := some (splitSamplers s) }
    | some (.inr l) => { b with samplers := some l }
    | none => b
  match o.timings_per_token with
  | some v => { b with timings_per_token := some v }
  | none => b

/-- The set of keys present on the wire object, in declaration order
(`JSON.stringify` omits `undefined` values). -/
def fieldIf (present : Bool) (name : String) : List String :=
  if present then [name] else []

/-- All optional-field groups of the wire object, in declaration order. -/
def presentFields (b : RequestBody) : List String :=
  List.flatten
    [["messages"],
     fieldIf b.stream.isSome "stream",
     fieldIf b.model.isSome "model",
     fieldIf b.reasoning_format.isSome "reasoning_format",
     fieldIf b.temperature.isSome "temperature",
     fieldIf b.max_tokens.isSome "max_tokens",
     fieldIf b.max_completion_tokens.isSome "max_completion_tokens",
     fieldIf b.reasoning_effort.isSome "reasoning_effort",
     fieldIf b.max_context.isSome "max_context",
     fieldIf b.dynatemp_range.isSome "dynatemp_range",
     fieldIf b.dynatemp_exponent.isSome "dynatemp_exponent",
     fieldIf b.top_k.isSome "top_k",
     fieldIf b.top_p.isSome "top_p",
     fieldIf b.min_p.isSome "min_p",
     fieldIf b.xtc_probability.isSome "xtc_probability",
     fieldIf b.xtc_threshold.isSome "xtc_threshold",
     fieldIf b.typ_p.isSome "typ_p",
     fieldIf b.repeat_last_n.isSome "repeat_last_n",
     fieldIf b.repeat_penalty.isSome "repeat_penalty",
     fieldIf b.presence_penalty.isSome "presence_penalty",
     fieldIf b.frequency_penalty.isSome "frequency_penalty",
     fieldIf b.dry_multiplier.isSome "dry_multiplier",
     fieldIf b.dry_base.isSome "dry_base",
     fieldIf b.dry_allowed_length.isSome "dry_allowed_length",
     fieldIf b.dry_penalty_last_n.isSome "dry_penalty_last_n",
     fieldIf b.samplers.isSome "samplers",
     fieldIf b.timings_per_token.isSome "timings_per_token",
     fieldIf b.stop.isSome "stop",
     fieldIf b.tools.isSome "tools",
     fieldIf b.tool_choice.isSome "tool_choice",
     fieldIf b.response_format.isSome "response_format",
     fieldIf b.n.isSome "n",
     fieldIf b.logit_bias.isSome "logit_bias",
     fieldIf b.user.isSome "user",
     b.extras]

/-- Normalization of the configured base URL (chat.ts lines 296-301): the
trimmed setting, defaulting to `"."` when empty, with one trailing slash
removed. -/
def normalizeBaseUrl (s : Str) : Str :=
  let t := if s.isEmpty then str "." else s
  if t ≠ str "." && t.getLast? == some '/' then t.dropLast else t

/-- External-API detection (chat.ts lines 303-304). -/
def isExternalApi (u : Str) : Bool :=
  u ≠ str "." && !((str "/").isPrefixOf u) &&
    ((str "http://").isPrefixOf u || (str "https://").isPrefixOf u)

/-- Allow-list of standard OpenAI fields kept for external APIs
(chat.ts lines 311-328). -/
def externalAllowList : List String :=
  ["messages", "model", "stream", "temperature", "top_p", "presence_penalty",
   "max_tokens", "max_completion_tokens", "reasoning_effort", "stop", "tools",
   "tool_choice", "response_format", "n", "logit_bias", "user"]

/-- The external-API filter (chat.ts lines 309-344): keep only the standard
parameters (dropping `undefined` ones), wipe everything else, then strip a
`max_tokens` of -1. -/
def filterForExternalApi (b : RequestBody) : RequestBody :=
  let filtered : RequestBody :=
    { messages := b.messages
      model := b.model
      stream := b.stream
      temperature := b.temperature
      top_p := b.top_p
      presence_penalty := b.presence_penalty
      max_tokens := b.max_tokens
      max_completion_tokens := b.max_completion_tokens
      reasoning_effort := b.reasoning_effort
      stop := b.stop
      tools := b.tools
      tool_choice := b.tool_choice
      response_format := b.response_format
      n := b.n
      logit_bias := b.logit_bias
      user := b.user }
  if filtered.max_tokens == some (-1) then { filtered with max_tokens := none }
  else filtered

/-- The full outbound body shaping for a configured base URL: normalization,
external detection, and conditional filtering (chat.ts lines 296-348). -/
def finalizeRequestBody (configuredUrl : Str) (b : RequestBody) : RequestBody :=
  if isExternalApi (normalizeBaseUrl configuredUrl) then filterForExternalApi b
  else b

/-- An HTTP response as seen by the retry loop: status plus error body text. -/
structure FetchResp where
  status : Nat
  body : Str
deriving DecidableEq

/-- `Response.ok`: status in the 200-299 range. -/
def respOk (r : FetchResp) : Bool := 200 ≤ r.status && r.status < 300

/-- The reasoning-effort rejection heuristic (chat.ts lines 377-379). -/
def reasoningMatch (t : Str) : Bool :=
  containsSub t (str "Thinking is not enabled") ||
  containsSub t (str "reasoning_effort") ||
  containsSub t (str "INVALID_ARGUMENT")

/-- The max_tokens rejection heuristic (chat.ts lines 389-391). -/
def maxTokensMatch (t : Str) : Bool :=
  containsSub t (str "max_tokens") ||
  containsSub t (str "max_completion_tokens") ||
  containsSub t (str "unknown name \"max_tokens\"")

/-- The two compatibility fixes applied to a 400 body (chat.ts lines 371-406):
drop `reasoning_effort`, rename `max_tokens` to `max_completion_tokens`;
returns the updated body and the `retrying` flag. -/
def retryFix (b : RequestBody) (errorText : Str) : RequestBody × Bool :=
  let p1 : RequestBody × Bool :=
    if reasoningMatch errorText && truthyOpt b.reasoning_effort then
      ({ b with reasoning_effort := none }, true)
    else (b, false)
  let b1 := p1.1
  if maxTokensMatch errorText && b1.max_tokens.isSome then
    ({ b1 with max_completion_tokens := b1.max_tokens, max_tokens := none }, true)
  else (b1, p1.2)

/-- The result of the fetch/retry loop: final request body, number of fetch
attempts performed, and the final response. -/
structure RetryOutcome where
  body : RequestBody
  attempts : Nat
  response : Option FetchResp
deriving DecidableEq

/-- The `while (attempts < maxAttempts)` loop of `sendMessage`
(chat.ts lines 350-410); `fetches n` is the response to the n-th POST of the
current (possibly fixed-up) body, and `fuel` is `maxAttempts - attempts`. -/
def sendLoop (fetches : Nat → FetchResp) :
    RequestBody → Nat → Nat → Option FetchResp → RetryOutcome
  | b, attempts, 0, last => ⟨b, attempts, last⟩
  | b, attempts, fuel + 1, _ =>
    let a := attempts + 1
    let r := fetches a
    if respOk r then ⟨b, a, some r⟩
    else if r.status = 400 then
      let fixed := retryFix b r.body
      if fixed.2 then sendLoop fetches fixed.1 a fuel (some r)
      else ⟨fixed.1, a, some r⟩
    else ⟨b, a, some r⟩

/-- The fetch/retry phase of `ChatService.sendMessage` with
`maxAttempts = 3` (chat.ts line 352). -/
def sendMessageRetry (fetches : Nat → FetchResp) (b : RequestBody) : RetryOutcome :=
  sendLoop fetches b 0 3 none

/-- The abort-controller tracking map: conversation key to controller token
(tokens stand for `AbortController` object identities). -/
abbrev ControllerMap := List (String × Nat)

/-- `Map.prototype.get`. -/
def lookupMap : ControllerMap → String → Option Nat
  | [], _ => none
  | (k, v) :: t, key => if k = key then some v else lookupMap t key

/-- `Map.prototype.delete`. -/
def eraseMap (m : ControllerMap) (key : String) : ControllerMap :=
  m.filter (fun p => p.1 ≠ key)

/-- `Map.prototype.set`: replace in place, or append a new entry. -/
def mapSet (m : ControllerMap) (key : String) (v : Nat) : ControllerMap :=
  if m.any (fun p => p.1 = key) then
    m.map (fun p => if p.1 = key then (key, v) else p)
  else m ++ [(key, v)]

/-- `ChatService.abort` (chat.ts lines 1046-1059): with a conversation id,
signal and remove only that entry; with none, signal every controller and
clear the map.  Returns the new map and the tokens whose `abort()` ran. -/
def abortOp (m : ControllerMap) (conversationId : Option String) :
    ControllerMap × List Nat :=
  match conversationId with
  | some cid =>
    match lookupMap m cid with
    | some ctl => (eraseMap m cid, [ctl])
    | none => (m, [])
  | none => ([], m.map (fun p => p.2))

/-- `conversationId || 'default'` (chat.ts line 194): the empty string is
falsy. -/
def requestKey : Option String → String
  | some s => if s = "" then "default" else s
  | none => "default"

/-- How one `sendMessage` call settles. -/
inductive Outcome where
  | success
  | errored
  | aborted
deriving DecidableEq

/-- The tracking-map effect of one complete `sendMessage` call
(chat.ts lines 194-201 and 476-478): abort any previous controller for the
key (a signal, not a map change), store a fresh controller, run the request
body (which never touches the map, whatever the outcome), and delete the
entry in the `finally` block. -/
def sendMessageLifecycle (m : ControllerMap) (conversationId : Option String)
    (fresh : Nat) (o : Outcome) : ControllerMap :=
  let k := requestKey conversationId
  let m1 := mapSet m k fresh
  let m2 := match o with
    | .success => m1
    | .errored => m1
    | .aborted => m1
  eraseMap m2 k

/-- A streaming run with no abort request (`abortSignal` never aborted). -/
def noAbortEnv : StreamEnv := { polls := fun _ => false, now := fun _ => 0 }

/-- Fold the content-delta scanner over a list of streamed content deltas,
starting from a fresh per-request state. -/
def runContentDeltas (deltas : List Str) : StreamCtx :=
  deltas.foldl (fun c d => processContent noAbortEnv c d) {}

/-- Concatenation of all visible-content callback payloads, in order. -/
def visibleConcat (c : StreamCtx) : Str :=
  (c.st.events.map (fun e => match e with | .chunk s => s | _ => [])).flatten

/-- Concatenation of all reasoning callback payloads, in order. -/
def reasoningConcat (c : StreamCtx) : Str :=
  (c.st.events.map (fun e => match e with | .reasoningChunk s => s | _ => [])).flatten

/-- The complete `data:` lines a byte stream decodes to: everything before
the final (unterminated) line of the concatenated reads. -/
def sseLines (chunks : List Str) : List Str :=
  (splitLines chunks.flatten).1

/-- The accumulated `function.arguments` string of a tool call. -/
def argsOf (tc : ToolCall) : Str :=
  (tc.function.getD {}).arguments.getD []

/-- Every optional generation/sampling parameter of the option bag is
unset: the bag equals the empty bag apart from `stream`. -/
def allParamsUnset (o : ChatOptions) : Prop :=
  o = { stream := o.stream }

/-- The condition under which one iteration of the fetch loop retries:
a non-ok 400 response whose body fires at least one compatibility fix. -/
def shouldRetry (b : RequestBody) (r : FetchResp) : Bool :=
  !respOk r && (r.status == 400) && (retryFix b r.body).2

/-- Whether an event is the completion callback. -/
def isCompleteEvent : StreamEvent → Bool
  | .complete _ _ _ _ => true
  | _ => false

/-- No completion callback has been invoked yet. -/
def eventsSafe (c : StreamCtx) : Prop :=
  ∀ e ∈ c.st.events, isCompleteEvent e = false

/-- The literal terminating line. -/
def doneLine : Str := str "data: [DONE]"

/-! ## Theorems -/

theorem lookupMap_mem_values {m : ControllerMap} {k : String} {v : Nat}
    (h : lookupMap m k = some v) : v ∈ m.map Prod.snd := by
  induction m with
  | nil => simp [lookupMap] at h
  | cons p t ih =>
    obtain ⟨k0, v0⟩ := p
    by_cases hk : k0 = k
    · simp [lookupMap, hk] at h
      simp [h]
    · simp [lookupMap, hk] at h
      simp [ih h]

theorem lookupMap_eraseMap_self (m : ControllerMap) (k : String) :
    lookupMap (eraseMap m k) k = none := by
  induction m with
  | nil => rfl
  | cons p t ih =>
    obtain ⟨k0, v0⟩ := p
    by_cases hk : k0 = k
    · simpa [eraseMap, hk] using ih
    · simpa [eraseMap, lookupMap, hk] using ih

theorem lookupMap_eraseMap_other {m : ControllerMap} {k j : String}
    (h : j ≠ k) : lookupMap (eraseMap m k) j = lookupMap m j := by
  induction m with
  | nil => rfl
  | cons p t ih =>
    obtain ⟨k0, v0⟩ := p
    by_cases hk : k0 = k
    · have hj : ¬ (k = j) := fun hh => h hh.symm
      simpa [eraseMap, lookupMap, hk, hj] using ih
    · by_cases hj : k0 = j
      · simp [eraseMap, lookupMap, List.filter_cons, hk, hj, h]
      · simpa [eraseMap, lookupMap, List.filter_cons, hk, hj] using ih

theorem lookupMap_ne_of_nodup {m : ControllerMap} {k j : String} {c d : Nat}
    (hk : lookupMap m k = some c) (hj : lookupMap m j = some d) (hne : k ≠ j)
    (hnd : (m.map Prod.snd).Nodup) : c ≠ d := by
  induction m with
  | nil => simp [lookupMap] at hk
  | cons p t ih =>
    obtain ⟨k0, v0⟩ := p
    simp only [List.map_cons, List.nodup_cons] at hnd
    by_cases h1 : k0 = k
    · have h2 : ¬ (k0 = j) := fun hh => hne (by rw [← h1, hh])
      simp only [lookupMap, if_pos h1] at hk
      simp only [lookupMap, if_neg h2] at hj
      intro hcd
      apply hnd.1
      rw [Option.some.inj hk, hcd]
      exact lookupMap_mem_values hj
    · by_cases h2 : k0 = j
      · simp only [lookupMap, if_pos h2] at hj
        simp only [lookupMap, if_neg h1] at hk
        intro hcd
        apply hnd.1
        rw [Option.some.inj hj, ← hcd]
        exact lookupMap_mem_values hk
      · simp only [lookupMap, if_neg h1] at hk
        simp only [lookupMap, if_neg h2] at hj
        exact ih hk hj hnd.2

/-- Claim C1: the spec requires that streaming the content
`"A<think>B</think>C"` split at arbitrary chunk boundaries always yields
visible content `"AC"` and reasoning `"B"`.  The code violates this: at the
split `["A", "<think>B</think>C"]` the scanner emits the pre-tag prefix
twice (the think buffer is not cleared when plain content is emitted, so the
prefix is re-emitted as `parts[0]` when the opening tag arrives), giving
visible content `"AAC"`; the unsplit stream gives `"AC"`, so the result
depends on the boundaries. -/
theorem c1_think_tag_split_bug :
    visibleConcat (runContentDeltas [str "A", str "<think>B</think>C"]) = str "AAC"
  ∧ reasoningConcat (runContentDeltas [str "A", str "<think>B</think>C"]) = str "B"
  ∧ visibleConcat (runContentDeltas [str "A<think>B</think>C"]) = str "AC"
  ∧ str "AAC" ≠ str "AC" := by
  refine ⟨by decide, by decide, by decide, by decide⟩

/-- Claim C7: aborting a specific conversation id signals and removes only
that id's cancellation handle, leaving every other tracked handle present,
unchanged, and unsignalled (given distinct controller objects); aborting
with no id signals every handle and clears the map. -/
theorem c7_abort_frame_effect (m : ControllerMap) (cid k : String)
    (hk : k ≠ cid) (hnd : (m.map Prod.snd).Nodup) :
    lookupMap (abortOp m (some cid)).1 cid = none
  ∧ lookupMap (abortOp m (some cid)).1 k = lookupMap m k
  ∧ (∀ c, lookupMap m k = some c → c ∉ (abortOp m (some cid)).2)
  ∧ (abortOp m none).1 = []
  ∧ (abortOp m none).2 = m.map Prod.snd := by
  refine ⟨?_, ?_, ?_, rfl, rfl⟩
  · unfold abortOp
    match h : lookupMap m cid with
    | some ctl => simpa [h] using lookupMap_eraseMap_self m cid
    | none => simp [h]
  · unfold abortOp
    match h : lookupMap m cid with
    | some ctl => simpa [h] using lookupMap_eraseMap_other (m := m) hk
    | none => simp [h]
  · intro c hc
    unfold abortOp
    match h : lookupMap m cid with
    | some ctl =>
      simpa [h] using lookupMap_ne_of_nodup hc h hk hnd
    | none => simp [h]

/-- Witness for C7 at a concrete two-entry map. -/
theorem c7_abort_frame_effect_witness :
    lookupMap (abortOp [("c1", 0), ("c2", 1)] (some "c1")).1 "c1" = none
  ∧ lookupMap (abortOp [("c1", 0), ("c2", 1)] (some "c1")).1 "c2" =
      lookupMap [("c1", 0), ("c2", 1)] "c2"
  ∧ (1 : Nat) ∉ (abortOp [("c1", 0), ("c2", 1)] (some "c1")).2
  ∧ (abortOp [("c1", 0), ("c2", 1)] none).1 = []
  ∧ (abortOp [("c1", 0), ("c2", 1)] none).2 =
      List.map Prod.snd [("c1", 0), ("c2", 1)] := by
  have h := c7_abort_frame_effect [("c1", 0), ("c2", 1)] "c1" "c2"
    (by decide) (by decide)
  exact ⟨h.1, h.2.1, h.2.2.1 1 (by decide), h.2.2.2.1, h.2.2.2.2⟩

/-- Claim C10: however a `sendMessage` call settles (success, error, or
abort), the `finally` block deletes the request key, so the tracking map
holds no entry for that key afterwards. -/
theorem c10_lifecycle_clears_entry (m : ControllerMap)
    (conversationId : Option String) (fresh : Nat) (o : Outcome) :
    lookupMap (sendMessageLifecycle m conversationId fresh o)
      (requestKey conversationId) = none := by
  cases o <;>
    simpa [sendMessageLifecycle] using
      lookupMap_eraseMap_self (mapSet m (requestKey conversationId) fresh)
        (requestKey conversationId)

/-- Claim C9: with usage counts 10/90 and no native timings, both derivation
paths report `prompt_n = 10`, `predicted_n = 90`, and prompt plus predicted
milliseconds equal to the wall-clock total within rounding (exactly when
anchored to a first-token time between start and end, and within one
millisecond under the 10/90 split). -/
theorem c9_usage_timing_fallback (u : Usage) (hu1 : u.prompt_tokens = some 10)
    (hu2 : u.completion_tokens = some 90) (startT endT : Nat) (hse : startT ≤ endT)
    (ftt : Option Nat) (hf : ∀ f, ftt = some f → startT ≤ f ∧ f ≤ endT) :
    ((deriveNonStreamTimings u startT endT).prompt_n = some 10
      ∧ (deriveNonStreamTimings u startT endT).predicted_n = some 90
      ∧ endT - startT - 1 ≤ (deriveNonStreamTimings u startT endT).prompt_ms.getD 0
          + (deriveNonStreamTimings u startT endT).predicted_ms.getD 0
      ∧ (deriveNonStreamTimings u startT endT).prompt_ms.getD 0
          + (deriveNonStreamTimings u startT endT).predicted_ms.getD 0 ≤ endT - startT)
  ∧ ((deriveStreamTimings u startT ftt endT).prompt_n = some 10
      ∧ (deriveStreamTimings u startT ftt endT).predicted_n = some 90
      ∧ endT - startT - 1 ≤ (deriveStreamTimings u startT ftt endT).prompt_ms.getD 0
          + (deriveStreamTimings u startT ftt endT).predicted_ms.getD 0
      ∧ (deriveStreamTimings u startT ftt endT).prompt_ms.getD 0
          + (deriveStreamTimings u startT ftt endT).predicted_ms.getD 0 ≤ endT - startT) := by
  constructor
  · refine ⟨by simp [deriveNonStreamTimings, hu1], by simp [deriveNonStreamTimings, hu2], ?_, ?_⟩
    · simp only [deriveNonStreamTimings, Option.getD_some]
      omega
    · simp only [deriveNonStreamTimings, Option.getD_some]
      omega
  · cases ftt with
    | none =>
      refine ⟨by simp [deriveStreamTimings, hu1], by simp [deriveStreamTimings, hu2], ?_, ?_⟩
      · simp only [deriveStreamTimings, Option.getD_some]
        omega
      · simp only [deriveStreamTimings, Option.getD_some]
        omega
    | some f =>
      obtain ⟨hf1, hf2⟩ := hf f rfl
      refine ⟨by simp [deriveStreamTimings, hu1], by simp [deriveStreamTimings, hu2], ?_, ?_⟩
      · simp only [deriveStreamTimings, Option.getD_some]
        omega
      · simp only [deriveStreamTimings, Option.getD_some]
        omega

/-- Witness for C9 at usage 10/90, `startT = 1000`, first token at 1100,
end at 2000. -/
theorem c9_usage_timing_fallback_witness :
    ((deriveNonStreamTimings { prompt_tokens := some 10, completion_tokens := some 90 }
        1000 2000).prompt_n = some 10
      ∧ (deriveNonStreamTimings { prompt_tokens := some 10, completion_tokens := some 90 }
          1000 2000).predicted_n = some 90
      ∧ 2000 - 1000 - 1 ≤
          (deriveNonStreamTimings { prompt_tokens := some 10, completion_tokens := some 90 }
            1000 2000).prompt_ms.getD 0
          + (deriveNonStreamTimings { prompt_tokens := some 10, completion_tokens := some 90 }
              1000 2000).predicted_ms.getD 0
      ∧ (deriveNonStreamTimings { prompt_tokens := some 10, completion_tokens := some 90 }
            1000 2000).prompt_ms.getD 0
          + (deriveNonStreamTimings { prompt_tokens := some 10, completion_tokens := some 90 }
              1000 2000).predicted_ms.getD 0 ≤ 2000 - 1000)
  ∧ ((deriveStreamTimings { prompt_tokens := some 10, completion_tokens := some 90 }
        1000 (some 1100) 2000).prompt_n = some 10
      ∧ (deriveStreamTimings { prompt_tokens := some 10, completion_tokens := some 90 }
          1000 (some 1100) 2000).predicted_n = some 90
      ∧ 2000 - 1000 - 1 ≤
          (deriveStreamTimings { prompt_tokens := some 10, completion_tokens := some 90 }
            1000 (some 1100) 2000).prompt_ms.getD 0
          + (deriveStreamTimings { prompt_tokens := some 10, completion_tokens := some 90 }
              1000 (some 1100) 2000).predicted_ms.getD 0
      ∧ (deriveStreamTimings { prompt_tokens := some 10, completion_tokens := some 90 }
            1000 (some 1100) 2000).prompt_ms.getD 0
          + (deriveStreamTimings { prompt_tokens := some 10, completion_tokens := some 90 }
              1000 (some 1100) 2000).predicted_ms.getD 0 ≤ 2000 - 1000) :=
  c9_usage_timing_fallback
    { prompt_tokens := some 10, completion_tokens := some 90 } rfl rfl
    1000 2000 (by omega) (some 1100)
    (fun f hf => by cases hf; omega)

/-- Counterexample for claim C3: with every optional parameter unset the
built wire request is not exactly `(messages, stream)` because the builder
always sets `reasoning_format`. -/
theorem c3_counterexample :
    "reasoning_format" ∈ presentFields (buildRequestBody []
      { stream := some true } {})
  ∧ "reasoning_format" ∉ (["messages", "stream"] : List String) := by
  constructor
  · decide
  · decide

/-- Claim C3 as amended: for any message list and any settings, when every
optional generation/sampling parameter is unset and no custom JSON is
configured, the built wire request contains exactly the fields `messages`,
`stream`, and `reasoning_format` (which is always set), plus `model` when
the model selector is enabled with an active model. -/
theorem c3_all_unset_fields (msgs : List ApiChatMessage) (o : ChatOptions)
    (cfg : AppConfig) (b : Bool) (ho : allParamsUnset o) (hs : o.stream = some b) :
    presentFields (buildRequestBody msgs o cfg) =
      (if cfg.modelSelectorEnabled && truthyOpt cfg.activeModel then
        ["messages", "stream", "model", "reasoning_format"]
      else ["messages", "stream", "reasoning_format"]) := by
  have ho' : o = { stream := some b } := by rw [ho, hs]
  subst ho'
  by_cases hm : (cfg.modelSelectorEnabled && truthyOpt cfg.activeModel) = true
  · rw [if_pos hm]
    have h2 : truthyOpt cfg.activeModel = true := by
      rw [Bool.and_eq_true] at hm
      exact hm.2
    have hms : cfg.activeModel.isSome = true := by
      cases hma : cfg.activeModel with
      | none => rw [hma] at h2; exact absurd h2 (by simp [truthyOpt])
      | some s => rfl
    simp [buildRequestBody, presentFields, fieldIf, hm, hms]
  · rw [if_neg hm]
    simp [buildRequestBody, presentFields, fieldIf, hm]

/-- Witness for C3 as amended, at a concrete all-unset option bag with the
model selector enabled and an active model. -/
theorem c3_all_unset_fields_witness :
    presentFields (buildRequestBody [] { stream := some true }
      { modelSelectorEnabled := true, activeModel := some (str "m") }) =
      ["messages", "stream", "model", "reasoning_format"] := by
  rw [c3_all_unset_fields [] { stream := some true }
    { modelSelectorEnabled := true, activeModel := some (str "m") } true rfl rfl]
  decide

theorem getD_pad (l : List ToolCall) (n j : Nat) :
    (l ++ List.replicate n emptyToolCall).getD j emptyToolCall
      = l.getD j emptyToolCall := by
  simp only [List.getD_eq_getElem?_getD, List.getElem?_append]
  by_cases h : j < l.length
  · simp [h]
  · rw [if_neg h, List.getElem?_eq_none (le_of_not_lt h), List.getElem?_replicate]
    split <;> rfl

/-- Claim C6: merging tool-call delta fragments with an explicit index is
additive: the fold processes deltas in arrival order, a delta's `id`, `type`
and function `name` are set when present, its function `arguments` are
appended to (never replace) the accumulated string, and no other slot is
touched; in particular the two example fragments merge into one call whose
arguments are the concatenation of the two fragments. -/
theorem c6_tool_call_merge_additive (ex : List ToolCall) (d : ToolCallDelta)
    (ds : List ToolCallDelta) (off : Nat) (i : Int)
    (hidx : d.index = some i) (hnn : 0 ≤ i) :
    mergeToolCallDeltas
        (mergeToolCallDeltas []
          [{ index := some 0,
             function := some { name := some (str "f"),
                                arguments := some (str "\x7b\"x\":") } }] 0)
        [{ index := some 0,
           function := some { arguments := some (str "1\x7d") } }] 0
      = [{ function := some { name := some (str "f"),
                              arguments := some (str "\x7b\"x\":1\x7d") } }]
  ∧ mergeToolCallDeltas ex (d :: ds) off
      = mergeToolCallDeltas (applyToolCallDelta ex d off) ds off
  ∧ (∀ fnd a, d.function = some fnd → fnd.arguments = some a → a ≠ [] →
      argsOf ((applyToolCallDelta ex d off).getD (i.toNat + off) emptyToolCall)
        = argsOf (ex.getD (i.toNat + off) emptyToolCall) ++ a)
  ∧ (∀ fnd nm, d.function = some fnd → fnd.name = some nm → nm ≠ [] →
      (((applyToolCallDelta ex d off).getD (i.toNat + off) emptyToolCall).function.getD
        {}).name = some nm)
  ∧ (∀ s, d.id = some s → s ≠ [] →
      ((applyToolCallDelta ex d off).getD (i.toNat + off) emptyToolCall).id = some s)
  ∧ (∀ s, d.type = some s → s ≠ [] →
      ((applyToolCallDelta ex d off).getD (i.toNat + off) emptyToolCall).type = some s)
  ∧ (∀ j, j ≠ i.toNat + off →
      (applyToolCallDelta ex d off).getD j emptyToolCall
        = ex.getD j emptyToolCall) := by
  have hlen : i.toNat + off <
      (ex ++ List.replicate (i.toNat + off + 1 - ex.length) emptyToolCall).length := by
    simp only [List.length_append, List.length_replicate]
    omega
  have hset :
      (applyToolCallDelta ex d off).getD (i.toNat + off) emptyToolCall
        = (let target := (ex ++ List.replicate (i.toNat + off + 1 - ex.length)
              emptyToolCall).getD (i.toNat + off) emptyToolCall
           let target := if truthyOpt d.id then { target with id := d.id } else target
           let target := if truthyOpt d.type then { target with type := d.type } else target
           match d.function with
           | none => target
           | some df =>
             let fn := target.function.getD {}
             let fn := if truthyOpt df.name then { fn with name := df.name } else fn
             let fn :=
               match df.arguments with
               | some a =>
                 if !a.isEmpty then
                   { fn with arguments := some (fn.arguments.getD [] ++ a) }
                 else fn
               | none => fn
             { target with function := some fn }) := by
    simp only [applyToolCallDelta, hidx, if_pos hnn]
    rw [List.getD_eq_getElem?_getD, List.getElem?_set_self hlen, Option.getD_some]
  refine ⟨by decide, rfl, ?_, ?_, ?_, ?_, ?_⟩
  · intro fnd a hd ha hne
    have ha' : a.isEmpty = false := by
      cases a with
      | nil => exact absurd rfl hne
      | cons x xs => rfl
    rw [hset, getD_pad]
    by_cases h1 : truthyOpt d.id = true <;> by_cases h2 : truthyOpt d.type = true <;>
      by_cases h3 : truthyOpt fnd.name = true <;>
        simp [argsOf, hd, ha, ha', h1, h2, h3]
  · intro fnd nm hd hn hne
    have hne' : nm.isEmpty = false := by
      cases nm with
      | nil => exact absurd rfl hne
      | cons x xs => rfl
    rw [hset, getD_pad]
    by_cases h1 : truthyOpt d.id = true <;> by_cases h2 : truthyOpt d.type = true <;>
      cases hfa : fnd.arguments <;>
        (try simp_all [truthyOpt]) <;> (try (split <;> simp_all [truthyOpt]))
  · intro s hs hne
    have hne' : s.isEmpty = false := by
      cases s with
      | nil => exact absurd rfl hne
      | cons x xs => rfl
    rw [hset, getD_pad]
    cases hd : d.function <;> by_cases h2 : truthyOpt d.type = true <;>
      simp_all [truthyOpt]
  · intro s hs hne
    have hne' : s.isEmpty = false := by
      cases s with
      | nil => exact absurd rfl hne
      | cons x xs => rfl
    rw [hset, getD_pad]
    cases hd : d.function <;> by_cases h1 : truthyOpt d.id = true <;>
      simp_all [truthyOpt]
  · intro j hj
    simp only [applyToolCallDelta, hidx, if_pos hnn]
    rw [List.getD_eq_getElem?_getD, List.getElem?_set_ne (fun hh => hj hh.symm),
      ← List.getD_eq_getElem?_getD, getD_pad]

/-- Witness for C6 at a concrete delta and accumulator. -/
theorem c6_tool_call_merge_additive_witness :
    argsOf ((applyToolCallDelta
        [{ function := some { name := some (str "f"), arguments := some (str "ab") } }]
        { index := some 0, function := some { arguments := some (str "cd") } } 0).getD
          (Int.toNat 0 + 0) emptyToolCall)
      = argsOf (List.getD
          [{ function := some { name := some (str "f"), arguments := some (str "ab") } }]
          (Int.toNat 0 + 0) emptyToolCall) ++ str "cd" :=
  (c6_tool_call_merge_additive
      [{ function := some { name := some (str "f"), arguments := some (str "ab") } }]
      { index := some 0, function := some { arguments := some (str "cd") } }
      [] 0 0 rfl (by omega)).2.2.1
    { arguments := some (str "cd") } (str "cd") rfl rfl (by decide)

/-- Counterexample for claim C2: with `maxAttempts = 3`, a 400 matching the
reasoning heuristic followed by a 400 matching the max_tokens heuristic
produces three fetch attempts, i.e. two retry passes, contradicting "at most
one retry pass is attempted ... after that single retry, any error is
surfaced as-is". -/
theorem c2_counterexample :
    (sendMessageRetry
      (fun n => if n = 1 then { status := 400, body := str "reasoning_effort" }
                else if n = 2 then { status := 400, body := str "max_tokens" }
                else { status := 400, body := str "other" })
      { stream := some true, reasoning_effort := some (str "high"),
        max_tokens := some 100 }).attempts = 3
  ∧ ¬ ((3 : Nat) ≤ 2) := by
  constructor
  · decide
  · decide

/-- Claim C2 as amended: per call, at most two retry passes happen (the loop
caps fetch attempts at three); a retry happens only after a non-ok 400 whose
body fires a fix against a field present in the request; the reasoning fix
removes `reasoning_effort` from the retried body and the max_tokens fix
renames `max_tokens` to `max_completion_tokens`, so each heuristic fires at
most once; responses that are ok, non-400, or match no fix end the loop with
the error surfaced as-is. -/
theorem c2_retry_loop (fetches : Nat → FetchResp) (b : RequestBody) :
    1 ≤ (sendMessageRetry fetches b).attempts
  ∧ (sendMessageRetry fetches b).attempts ≤ 3
  ∧ (shouldRetry b (fetches 1) = false → (sendMessageRetry fetches b).attempts = 1)
  ∧ (2 ≤ (sendMessageRetry fetches b).attempts → shouldRetry b (fetches 1) = true)
  ∧ ((sendMessageRetry fetches b).attempts = 3 →
      shouldRetry (retryFix b (fetches 1).body).1 (fetches 2) = true)
  ∧ (∀ t, reasoningMatch t = true → truthyOpt b.reasoning_effort = true →
      (retryFix b t).1.reasoning_effort = none)
  ∧ (∀ t, maxTokensMatch t = true → b.max_tokens.isSome = true →
      (retryFix b t).1.max_tokens = none
        ∧ (retryFix b t).1.max_completion_tokens = b.max_tokens) := by
  have hfix1 : ∀ t, reasoningMatch t = true → truthyOpt b.reasoning_effort = true →
      (retryFix b t).1.reasoning_effort = none := by
    intro t h1 h2
    simp only [retryFix, h1, h2, Bool.and_self, if_true]
    split <;> simp
  have hfix2 : ∀ t, maxTokensMatch t = true → b.max_tokens.isSome = true →
      (retryFix b t).1.max_tokens = none
        ∧ (retryFix b t).1.max_completion_tokens = b.max_tokens := by
    intro t h1 h2
    simp only [retryFix]
    split <;> simp [h1, h2]
  by_cases h1 : respOk (fetches 1) = true
  · have e : (sendMessageRetry fetches b).attempts = 1 := by
      simp [sendMessageRetry, sendLoop, h1]
    exact ⟨by omega, by omega, fun _ => e,
      fun hh => absurd (e ▸ hh) (by omega),
      fun hh => absurd (e ▸ hh) (by omega), hfix1, hfix2⟩
  · by_cases hs1 : (fetches 1).status = 400
    · by_cases hf1 : (retryFix b (fetches 1).body).2 = true
      · have hsr : shouldRetry b (fetches 1) = true := by
          simp [shouldRetry, h1, hs1, hf1]
        by_cases h2 : respOk (fetches 2) = true
        · have e : (sendMessageRetry fetches b).attempts = 2 := by
            simp [sendMessageRetry, sendLoop, h1, hs1, hf1, h2]
          exact ⟨by omega, by omega,
            fun hh => absurd (hh ▸ hsr) (by decide),
            fun _ => hsr,
            fun hh => absurd (e ▸ hh) (by omega), hfix1, hfix2⟩
        · by_cases hs2 : (fetches 2).status = 400
          · by_cases hf2 : (retryFix (retryFix b (fetches 1).body).1
                (fetches 2).body).2 = true
            · have hsr2 : shouldRetry (retryFix b (fetches 1).body).1 (fetches 2)
                  = true := by
                simp [shouldRetry, h2, hs2, hf2]
              have e : (sendMessageRetry fetches b).attempts = 3 := by
                by_cases h3 : respOk (fetches 3) = true
                · simp [sendMessageRetry, sendLoop, h1, hs1, hf1, h2, hs2, hf2, h3]
                · by_cases hs3 : (fetches 3).status = 400
                  · by_cases hf3 : (retryFix (retryFix (retryFix b (fetches 1).body).1
                        (fetches 2).body).1 (fetches 3).body).2 = true
                    · simp [sendMessageRetry, sendLoop, h1, hs1, hf1, h2, hs2, hf2,
                        h3, hs3, hf3]
                    · simp [sendMessageRetry, sendLoop, h1, hs1, hf1, h2, hs2, hf2,
                        h3, hs3, hf3]
                  · simp [sendMessageRetry, sendLoop, h1, hs1, hf1, h2, hs2, hf2,
                      h3, hs3]
              exact ⟨by omega, by omega,
                fun hh => absurd (hh ▸ hsr) (by decide),
                fun _ => hsr, fun _ => hsr2, hfix1, hfix2⟩
            · have e : (sendMessageRetry fetches b).attempts = 2 := by
                simp [sendMessageRetry, sendLoop, h1, hs1, hf1, h2, hs2, hf2]
              exact ⟨by omega, by omega,
                fun hh => absurd (hh ▸ hsr) (by decide),
                fun _ => hsr,
                fun hh => absurd (e ▸ hh) (by omega), hfix1, hfix2⟩
          · have e : (sendMessageRetry fetches b).attempts = 2 := by
              simp [sendMessageRetry, sendLoop, h1, hs1, hf1, h2, hs2]
            exact ⟨by omega, by omega,
              fun hh => absurd (hh ▸ hsr) (by decide),
              fun _ => hsr,
              fun hh => absurd (e ▸ hh) (by omega), hfix1, hfix2⟩
      · have e : (sendMessageRetry fetches b).attempts = 1 := by
          simp [sendMessageRetry, sendLoop, h1, hs1, hf1]
        exact ⟨by omega, by omega, fun _ => e,
          fun hh => absurd (e ▸ hh) (by omega),
          fun hh => absurd (e ▸ hh) (by omega), hfix1, hfix2⟩
    · have e : (sendMessageRetry fetches b).attempts = 1 := by
        simp [sendMessageRetry, sendLoop, h1, hs1]
      exact ⟨by omega, by omega, fun _ => e,
        fun hh => absurd (e ▸ hh) (by omega),
        fun hh => absurd (e ▸ hh) (by omega), hfix1, hfix2⟩

/-- Witness for C2 at a concrete ok response and request body. -/
theorem c2_retry_loop_witness :
    (sendMessageRetry (fun _ => { status := 200, body := [] })
      { stream := some true }).attempts = 1 :=
  (c2_retry_loop (fun _ => { status := 200, body := [] })
    { stream := some true }).2.2.1 (by decide)

theorem prefix_dropLast {p url : Str} (hp : p <+: url)
    (hlen : p.length < url.length) : p <+: url.dropLast := by
  rw [List.prefix_iff_eq_take] at hp ⊢
  rw [List.dropLast_eq_take, List.take_take]
  have hm : p.length ⊓ (url.length - 1) = p.length := Nat.min_eq_left (by omega)
  rw [hm]
  exact hp

theorem prefix_normalizeBaseUrl {p url : Str} (hp : p.isPrefixOf url = true)
    (hne : url ≠ p) : p.isPrefixOf (normalizeBaseUrl url) = true := by
  rw [List.isPrefixOf_iff_prefix] at hp ⊢
  have hlen : p.length < url.length := by
    rcases lt_or_eq_of_le hp.length_le with h | h
    · exact h
    · exact absurd (hp.eq_of_length h).symm hne
  have hemp : url.isEmpty = false := by
    cases url with
    | nil => simp at hlen
    | cons c t => rfl
  unfold normalizeBaseUrl
  rw [hemp]
  simp only [Bool.false_eq_true, if_false]
  split
  · exact prefix_dropLast hp hlen
  · exact hp

theorem isExternal_of_scheme {url : Str}
    (h : ((str "http://").isPrefixOf url = true ∧ url ≠ str "http://")
       ∨ ((str "https://").isPrefixOf url = true ∧ url ≠ str "https://")) :
    isExternalApi (normalizeBaseUrl url) = true := by
  rcases h with ⟨hp, hne⟩ | ⟨hp, hne⟩
  · have hp' := prefix_normalizeBaseUrl hp hne
    obtain ⟨t, ht⟩ := (List.isPrefixOf_iff_prefix).mp hp'
    rw [show ((str "http://" : Str) ++ t : Str) = 'h' :: (str "ttp://" ++ t) from rfl]
      at ht
    rw [isExternalApi, ← ht]
    simp [str, List.isPrefixOf] at hp' ⊢
  · have hp' := prefix_normalizeBaseUrl hp hne
    obtain ⟨t, ht⟩ := (List.isPrefixOf_iff_prefix).mp hp'
    rw [show ((str "https://" : Str) ++ t : Str) = 'h' :: (str "ttps://" ++ t) from rfl]
      at ht
    rw [isExternalApi, ← ht]
    simp [str, List.isPrefixOf] at hp' ⊢

theorem presentFields_filter_subset (b : RequestBody) :
    ∀ f ∈ presentFields (filterForExternalApi b), f ∈ externalAllowList := by
  intro f hf
  simp only [filterForExternalApi] at hf
  split at hf <;> simp [presentFields, fieldIf] at hf <;>
    simp [externalAllowList] <;> tauto

theorem filter_no_neg_one (b : RequestBody) :
    (filterForExternalApi b).max_tokens ≠ some (-1) := by
  simp only [filterForExternalApi]
  split
  · simp
  · next h => simpa using h

/-- Counterexample for claim C5: the degenerate configured base URL
`"http://"` begins with `http://`, but the trailing-slash normalization turns
it into `"http:/"`, which the code does not classify as external, so no
filtering happens: the built body keeps `top_k` (outside the allow-list) and
a `max_tokens` of -1. -/
theorem c5_counterexample :
    (str "http://").isPrefixOf (str "http://") = true
  ∧ "top_k" ∈ presentFields (finalizeRequestBody (str "http://")
      (buildRequestBody []
        { stream := some true, top_k := some 40, max_tokens := some (some 0) } {}))
  ∧ "top_k" ∉ externalAllowList
  ∧ (finalizeRequestBody (str "http://")
      (buildRequestBody []
        { stream := some true, top_k := some 40, max_tokens := some (some 0) } {})).max_tokens
      = some (-1) := by
  refine ⟨by decide, by decide, by decide, by decide⟩

/-- Claim C5 as amended: for every configured base URL beginning with
`http://` or `https://` other than the bare scheme strings themselves (whose
trailing-slash stripping defeats the external-API detection), the outbound
body contains only allow-listed standard fields and never a `max_tokens` of
-1. -/
theorem c5_external_allowlist (url : Str) (b : RequestBody)
    (h : ((str "http://").isPrefixOf url = true ∧ url ≠ str "http://")
       ∨ ((str "https://").isPrefixOf url = true ∧ url ≠ str "https://")) :
    (∀ f ∈ presentFields (finalizeRequestBody url b), f ∈ externalAllowList)
  ∧ (finalizeRequestBody url b).max_tokens ≠ some (-1) := by
  have hext : isExternalApi (normalizeBaseUrl url) = true := isExternal_of_scheme h
  unfold finalizeRequestBody
  rw [if_pos hext]
  exact ⟨presentFields_filter_subset b, filter_no_neg_one b⟩

/-- Witness for C5 at a concrete external URL and a body carrying both a
disallowed field and the -1 sentinel. -/
theorem c5_external_allowlist_witness :
    (finalizeRequestBody (str "https://api.example.com")
      { stream := some true, top_k := some 5, max_tokens := some (-1),
        extras := ["zzz"] }).max_tokens ≠ some (-1) :=
  (c5_external_allowlist (str "https://api.example.com")
    { stream := some true, top_k := some 5, max_tokens := some (-1),
      extras := ["zzz"] }
    (Or.inr ⟨by decide, by decide⟩)).2

theorem all_ws_of_trim_nil {s : Str} (h : trimStr s = []) :
    ∀ c ∈ s, c.isWhitespace = true := by
  unfold trimStr at h
  rw [List.reverse_eq_nil_iff, List.dropWhile_eq_nil_iff] at h
  intro c hc
  rcases List.mem_append.mp
      ((List.takeWhile_append_dropWhile Char.isWhitespace s) ▸ hc) with h1 | h1
  · exact List.mem_takeWhile_imp h1
  · exact h c (by simpa using h1)

theorem findSub_openTag_none {s : Str} (h : ∀ c ∈ s, c.isWhitespace = true) :
    findSub s openTagL = none := by
  induction s with
  | nil => rfl
  | cons c t ih =>
    have hc : c.isWhitespace = true := h c (by simp)
    have hne : ('<' : Char) ≠ c := by
      intro he
      rw [← he] at hc
      exact absurd hc (by decide)
    have hpre : openTagL.isPrefixOf (c :: t) = false := by
      rw [show openTagL = '<' :: str "think>" from rfl]
      simp [List.isPrefixOf, hne]
    rw [findSub]
    simp only [hpre, Bool.false_eq_true, if_false]
    rw [ih (fun x hx => h x (by simp [hx]))]
    rfl

theorem thinkSpans_nil_of_ws {s : Str} (h : ∀ c ∈ s, c.isWhitespace = true) :
    thinkSpans s = [] := by
  induction s with
  | nil => simp [thinkSpans]
  | cons c t ih =>
    have hc : c.isWhitespace = true := h c (by simp)
    have hne : ('<' : Char) ≠ c := by
      intro he
      rw [← he] at hc
      exact absurd hc (by decide)
    have hpre : openTagL.isPrefixOf (c :: t) = false := by
      rw [show openTagL = '<' :: str "think>" from rfl]
      simp [List.isPrefixOf, hne]
    simp only [thinkSpans, hpre, Bool.false_eq_true, if_false]
    exact ih (fun x hx => h x (by simp [hx]))

theorem parseThinkTags_of_ws {s : Str} (h : trimStr s = []) :
    parseThinkTags s = (s, none) := by
  simp [parseThinkTags, thinkSpans_nil_of_ws (all_ws_of_trim_nil h)]

/-- Claim C8: a non-streaming response whose body is empty, or whose parsed
body has neither non-whitespace textual content nor any tool calls, makes
`handleNonStreamResponse` throw the "no response received" error and invoke
the error callback before propagating it. -/
theorem c8_empty_response_error (parse : Str → Except Str ApiPayload)
    (responseText : Str) (startTime : Option Nat) (endTime : Nat)
    (h : (trimStr responseText).isEmpty = true
       ∨ ∃ data, parse responseText = Except.ok data
           ∧ (trimStr (((data.choices.head?.bind (fun ch => ch.message)).bind
                (fun m => m.content)).getD [])).isEmpty = true
           ∧ ((data.choices.head?.bind (fun ch => ch.message)).bind
                (fun m => m.tool_calls)).getD [] = []) :
    (handleNonStreamResponse parse responseText startTime endTime).2
        = Except.error noResponseMsg
  ∧ StreamEvent.errorEvent noResponseMsg
      ∈ (handleNonStreamResponse parse responseText startTime endTime).1 := by
  by_cases hr : (trimStr responseText).isEmpty = true
  · constructor <;> simp [handleNonStreamResponse, hr]
  · rcases h with h | ⟨data, hp, hc, ht⟩
    · exact absurd h hr
    · have hc' : trimStr (((data.choices.head?.bind (fun ch => ch.message)).bind
          (fun m => m.content)).getD []) = [] := List.isEmpty_iff.mp hc
      simp only [handleNonStreamResponse, hr, Bool.false_eq_true, if_false, hp]
      by_cases h0 : (((data.choices.head?.bind (fun ch => ch.message)).bind
          (fun m => m.content)).getD []).isEmpty = true
      · by_cases htc : ((data.choices.head?.bind (fun ch => ch.message)).bind
            (fun m => m.tool_calls)) = none
        · constructor <;> simp [h0, htc, hc]
        · obtain ⟨l, hl⟩ := Option.ne_none_iff_exists'.mp htc
          have hl0 : l = [] := by
            rw [hl] at ht
            simpa using ht
          constructor <;> simp [h0, hl, hl0, hc]
      · by_cases hrc : truthyOpt
            (jsOrOpt ((data.choices.head?.bind (fun ch => ch.message)).bind
                (fun m => m.reasoning))
              ((data.choices.head?.bind (fun ch => ch.message)).bind
                (fun m => m.reasoning_content))) = true
        · by_cases htc : ((data.choices.head?.bind (fun ch => ch.message)).bind
              (fun m => m.tool_calls)) = none
          · constructor <;> simp [h0, hrc, htc, hc]
          · obtain ⟨l, hl⟩ := Option.ne_none_iff_exists'.mp htc
            have hl0 : l = [] := by
              rw [hl] at ht
              simpa using ht
            constructor <;> simp [h0, hrc, hl, hl0, hc]
        · have hpt := parseThinkTags_of_ws hc'
          by_cases htc : ((data.choices.head?.bind (fun ch => ch.message)).bind
              (fun m => m.tool_calls)) = none
          · constructor <;> simp [h0, hrc, htc, hpt, hc]
          · obtain ⟨l, hl⟩ := Option.ne_none_iff_exists'.mp htc
            have hl0 : l = [] := by
              rw [hl] at ht
              simpa using ht
            constructor <;> simp [h0, hrc, hl, hl0, hpt, hc]

/-- Witness for C8 at a whitespace-only response body. -/
theorem c8_empty_response_error_witness :
    (handleNonStreamResponse (fun _ => Except.error (str "x")) (str " ")
        (some 0) 5).2 = Except.error noResponseMsg
  ∧ StreamEvent.errorEvent noResponseMsg
      ∈ (handleNonStreamResponse (fun _ => Except.error (str "x")) (str " ")
          (some 0) 5).1 :=
  c8_empty_response_error (fun _ => Except.error (str "x")) (str " ")
    (some 0) 5 (Or.inl (by decide))

theorem splitLines_append (a b : Str) :
    splitLines (a ++ b)
      = ((splitLines a).1 ++ (splitLines ((splitLines a).2 ++ b)).1,
         (splitLines ((splitLines a).2 ++ b)).2) := by
  induction a with
  | nil => simp [splitLines]
  | cons c t ih =>
    by_cases hc : c = '\n'
    · subst hc
      simp [splitLines, ih]
    · rcases h1 : (splitLines t).1 with _ | ⟨h0, r0⟩
      · rcases h2 : (splitLines ((splitLines t).2 ++ b)).1 with _ | ⟨hh, rr⟩
        · simp [splitLines, hc, ih, h1, h2]
        · simp [splitLines, hc, ih, h1, h2]
      · simp [splitLines, hc, ih, h1]

theorem sfin_finalizeOpenToolCallBatch (c : StreamCtx) :
    (finalizeOpenToolCallBatch c).st.streamFinished = c.st.streamFinished := by
  unfold finalizeOpenToolCallBatch
  split <;> rfl

theorem sfin_processToolCallDelta (env : StreamEnv) (c : StreamCtx)
    (tcs : Option (List ToolCallDelta)) :
    (processToolCallDelta env c tcs).st.streamFinished = c.st.streamFinished := by
  cases tcs with
  | none => rfl
  | some l =>
    simp only [processToolCallDelta]
    split_ifs <;> simp [emit, pollAborted]

theorem sfin_emitVisibleGuarded (env : StreamEnv) (c : StreamCtx) (s : Str) :
    (emitVisibleGuarded env c s).st.streamFinished = c.st.streamFinished := by
  simp only [emitVisibleGuarded, emit, pollAborted]
  split_ifs <;> simp

theorem sfin_emitReasoningGuarded (env : StreamEnv) (c : StreamCtx) (s : Str) :
    (emitReasoningGuarded env c s).st.streamFinished = c.st.streamFinished := by
  simp only [emitReasoningGuarded, emit, pollAborted]
  split_ifs <;> simp

theorem sfin_processContent (env : StreamEnv) (c : StreamCtx) (content : Str) :
    (processContent env c content).st.streamFinished = c.st.streamFinished := by
  simp only [processContent]
  split_ifs <;>
    simp [sfin_emitVisibleGuarded, sfin_emitReasoningGuarded,
      sfin_finalizeOpenToolCallBatch, emit, pollAborted]

theorem sfin_processReasoning (env : StreamEnv) (c : StreamCtx) (rc : Str) :
    (processReasoning env c rc).st.streamFinished = c.st.streamFinished := by
  simp only [processReasoning, finalizeOpenToolCallBatch, emit, pollAborted]
  split_ifs <;> simp

theorem sfin_processFirstValid (env : StreamEnv) (c : StreamCtx) (parsed : ApiPayload) :
    (processFirstValid env c parsed).st.streamFinished = c.st.streamFinished := by
  simp only [processFirstValid, emit, pollAborted]
  split_ifs <;> simp

theorem sfin_processModel (c : StreamCtx) (parsed : ApiPayload) :
    (processModel c parsed).st.streamFinished = c.st.streamFinished := by
  simp only [processModel, emit]
  split <;> (try split_ifs) <;> simp

theorem sfin_processFirstToken (env : StreamEnv) (c : StreamCtx)
    (content reasoningContent : Option Str) :
    (processFirstToken env c content reasoningContent).st.streamFinished
      = c.st.streamFinished := by
  simp only [processFirstToken, dateNow]
  split_ifs <;> simp

theorem sfin_processUsageCapture (c : StreamCtx) (parsed : ApiPayload)
    (finishReason : Option Str) :
    (processUsageCapture c parsed finishReason).st.streamFinished
      = c.st.streamFinished := by
  simp only [processUsageCapture]
  split_ifs <;> simp

theorem sfin_processTimingsChannel (c : StreamCtx) (parsed : ApiPayload) :
    (processTimingsChannel c parsed).st.streamFinished = c.st.streamFinished := by
  simp only [processTimingsChannel, emit]
  split_ifs <;> (try split) <;> simp

theorem sfin_processParsed (env : StreamEnv) (c : StreamCtx) (parsed : ApiPayload) :
    (processParsed env c parsed).st.streamFinished = c.st.streamFinished := by
  simp only [processParsed]
  rw [sfin_processToolCallDelta]
  split
  · split_ifs <;>
      simp [sfin_processContent, sfin_processReasoning, sfin_processTimingsChannel,
        sfin_processUsageCapture, sfin_processFirstToken, sfin_processModel,
        sfin_processFirstValid]
  · simp [sfin_processContent, sfin_processTimingsChannel,
      sfin_processUsageCapture, sfin_processFirstToken, sfin_processModel,
      sfin_processFirstValid]

theorem events_finalizeOpenToolCallBatch (c : StreamCtx) :
    (finalizeOpenToolCallBatch c).st.events = c.st.events := by
  simp only [finalizeOpenToolCallBatch]
  split <;> rfl

theorem filtC_emitVisibleGuarded (env : StreamEnv) (c : StreamCtx) (s : Str) :
    ((emitVisibleGuarded env c s).st.events).filter isCompleteEvent
      = (c.st.events).filter isCompleteEvent := by
  simp only [emitVisibleGuarded, emit, pollAborted]
  split_ifs <;> simp [List.filter_append, isCompleteEvent]

theorem filtC_emitReasoningGuarded (env : StreamEnv) (c : StreamCtx) (s : Str) :
    ((emitReasoningGuarded env c s).st.events).filter isCompleteEvent
      = (c.st.events).filter isCompleteEvent := by
  simp only [emitReasoningGuarded, emit, pollAborted]
  split_ifs <;> simp [List.filter_append, isCompleteEvent]

theorem filtC_processToolCallDelta (env : StreamEnv) (c : StreamCtx)
    (tcs : Option (List ToolCallDelta)) :
    ((processToolCallDelta env c tcs).st.events).filter isCompleteEvent
      = (c.st.events).filter isCompleteEvent := by
  cases tcs with
  | none => rfl
  | some l =>
    simp only [processToolCallDelta, emit, pollAborted]
    split_ifs <;> simp [List.filter_append, isCompleteEvent]

theorem filtC_processContent (env : StreamEnv) (c : StreamCtx) (content : Str) :
    ((processContent env c content).st.events).filter isCompleteEvent
      = (c.st.events).filter isCompleteEvent := by
  simp only [processContent]
  split_ifs <;>
    simp [filtC_emitVisibleGuarded, filtC_emitReasoningGuarded,
      events_finalizeOpenToolCallBatch, emit, pollAborted,
      List.filter_append, isCompleteEvent]

theorem filtC_processReasoning (env : StreamEnv) (c : StreamCtx) (rc : Str) :
    ((processReasoning env c rc).st.events).filter isCompleteEvent
      = (c.st.events).filter isCompleteEvent := by
  simp only [processReasoning, emit, pollAborted]
  split_ifs <;>
    simp [events_finalizeOpenToolCallBatch, List.filter_append, isCompleteEvent]

theorem filtC_processFirstValid (env : StreamEnv) (c : StreamCtx) (parsed : ApiPayload) :
    ((processFirstValid env c parsed).st.events).filter isCompleteEvent
      = (c.st.events).filter isCompleteEvent := by
  simp only [processFirstValid, emit, pollAborted]
  split_ifs <;> simp [List.filter_append, isCompleteEvent]

theorem filtC_processModel (c : StreamCtx) (parsed : ApiPayload) :
    ((processModel c parsed).st.events).filter isCompleteEvent
      = (c.st.events).filter isCompleteEvent := by
  simp only [processModel, emit]
  split <;> (try split_ifs) <;> simp [List.filter_append, isCompleteEvent]

theorem filtC_processFirstToken (env : StreamEnv) (c : StreamCtx)
    (content reasoningContent : Option Str) :
    ((processFirstToken env c content reasoningContent).st.events).filter isCompleteEvent
      = (c.st.events).filter isCompleteEvent := by
  simp only [processFirstToken, dateNow]
  split_ifs <;> simp

theorem filtC_processUsageCapture (c : StreamCtx) (parsed : ApiPayload)
    (finishReason : Option Str) :
    ((processUsageCapture c parsed finishReason).st.events).filter isCompleteEvent
      = (c.st.events).filter isCompleteEvent := by
  simp only [processUsageCapture]
  split_ifs <;> simp

theorem filtC_processTimingsChannel (c : StreamCtx) (parsed : ApiPayload) :
    ((processTimingsChannel c parsed).st.events).filter isCompleteEvent
      = (c.st.events).filter isCompleteEvent := by
  simp only [processTimingsChannel, emit]
  split_ifs <;> (try split) <;> simp [List.filter_append, isCompleteEvent]

theorem filtC_processParsed (parse : StreamEnv) (c : StreamCtx) (parsed : ApiPayload) :
    ((processParsed parse c parsed).st.events).filter isCompleteEvent
      = (c.st.events).filter isCompleteEvent := by
  simp only [processParsed]
  rw [filtC_processToolCallDelta]
  split
  · split_ifs <;>
      simp [filtC_processContent, filtC_processReasoning, filtC_processTimingsChannel,
        filtC_processUsageCapture, filtC_processFirstToken, filtC_processModel,
        filtC_processFirstValid]
  · simp [filtC_processContent, filtC_processTimingsChannel,
      filtC_processUsageCapture, filtC_processFirstToken, filtC_processModel,
      filtC_processFirstValid]

theorem filtC_processLine (parse : Str → Option ApiPayload) (env : StreamEnv)
    (c : StreamCtx) (l : Str) :
    ((processLine parse env c l).st.events).filter isCompleteEvent
      = (c.st.events).filter isCompleteEvent := by
  simp only [processLine]
  by_cases h1 : (str "data: ").isPrefixOf l = true
  · rw [if_pos h1]
    by_cases h2 : l.drop 6 = str "[DONE]"
    · rw [if_pos h2]
    · rw [if_neg h2]
      cases hp : parse (l.drop 6) <;> simp [filtC_processParsed]
  · rw [if_neg h1]

theorem filtC_processLinesLoop (parse : Str → Option ApiPayload) (env : StreamEnv) :
    ∀ (lines : List Str) (c : StreamCtx),
    ((processLinesLoop parse env c lines).st.events).filter isCompleteEvent
      = (c.st.events).filter isCompleteEvent := by
  intro lines
  induction lines with
  | nil => intro c; rfl
  | cons l ls ih =>
    intro c
    simp only [processLinesLoop, pollAborted]
    split_ifs <;> simp [ih, filtC_processLine]

theorem filtC_loopChunks (parse : Str → Option ApiPayload) (env : StreamEnv) :
    ∀ (chunks : List Str) (c : StreamCtx) (buffer : Str),
    ((loopChunks parse env c buffer chunks).st.events).filter isCompleteEvent
      = (c.st.events).filter isCompleteEvent := by
  intro chunks
  induction chunks with
  | nil => intro c buffer; rfl
  | cons ch cs ih =>
    intro c buffer
    simp only [loopChunks, pollAborted]
    split_ifs <;> simp [ih, filtC_processLinesLoop]

theorem sfin_processLine {parse : Str → Option ApiPayload} {env : StreamEnv}
    {c : StreamCtx} {l : Str}
    (h : (processLine parse env c l).st.streamFinished = true) :
    c.st.streamFinished = true ∨ l = doneLine := by
  by_cases h1 : (str "data: ").isPrefixOf l = true
  · by_cases h2 : l.drop 6 = str "[DONE]"
    · right
      obtain ⟨t, ht⟩ := List.isPrefixOf_iff_prefix.mp h1
      have hd : l.drop 6 = t := by
        rw [← ht]
        have h6 : (6 : Nat) = (str "data: ").length := rfl
        rw [h6, List.drop_left]
      have ht' : t = str "[DONE]" := by rw [← hd, h2]
      have : str "data: [DONE]" = str "data: " ++ str "[DONE]" := rfl
      rw [doneLine, this, ← ht', ht]
    · left
      unfold processLine at h
      rw [if_pos h1, if_neg h2] at h
      cases hp : parse (l.drop 6) with
      | none => rw [hp] at h; exact h
      | some payload => rw [hp] at h; rwa [sfin_processParsed] at h
  · left
    unfold processLine at h
    rwa [if_neg h1] at h

theorem sfin_processLinesLoop {parse : Str → Option ApiPayload} {env : StreamEnv} :
    ∀ {lines : List Str} {c : StreamCtx},
    (processLinesLoop parse env c lines).st.streamFinished = true →
    c.st.streamFinished = true ∨ doneLine ∈ lines := by
  intro lines
  induction lines with
  | nil => intro c h; exact Or.inl h
  | cons l ls ih =>
    intro c h
    simp only [processLinesLoop, pollAborted] at h
    by_cases hab : env.polls c.clock = true
    · rw [if_pos hab] at h
      exact Or.inl h
    · rw [if_neg hab] at h
      rcases ih h with h' | h'
      · rcases sfin_processLine h' with h'' | h''
        · exact Or.inl h''
        · exact Or.inr (by simp [h''])
      · exact Or.inr (List.mem_cons_of_mem _ h')

theorem sfin_loopChunks {parse : Str → Option ApiPayload} {env : StreamEnv} :
    ∀ (chunks : List Str) (c : StreamCtx) (buffer : Str),
    (loopChunks parse env c buffer chunks).st.streamFinished = true →
    c.st.streamFinished = true
      ∨ doneLine ∈ (splitLines (buffer ++ chunks.flatten)).1 := by
  intro chunks
  induction chunks with
  | nil =>
    intro c buffer h
    simp only [loopChunks, pollAborted] at h
    exact Or.inl h
  | cons ch cs ih =>
    intro c buffer h
    have hsplit : (splitLines (buffer ++ (ch :: cs).flatten)).1
        = (splitLines (buffer ++ ch)).1
          ++ (splitLines ((splitLines (buffer ++ ch)).2 ++ cs.flatten)).1 := by
      have ha : buffer ++ (ch :: cs).flatten = (buffer ++ ch) ++ cs.flatten := by
        simp [List.append_assoc]
      rw [ha, splitLines_append]
    simp only [loopChunks, pollAborted] at h
    by_cases h1 : env.polls c.clock = true
    · rw [if_pos h1] at h
      exact Or.inl h
    · rw [if_neg h1] at h
      by_cases h2 : env.polls (c.clock + 1) = true
      · rw [if_pos h2] at h
        exact Or.inl h
      · rw [if_neg h2] at h
        split at h
        · rcases sfin_processLinesLoop h with h' | h'
          · exact Or.inl h'
          · rw [hsplit]
            exact Or.inr (List.mem_append_left _ h')
        · rcases ih _ _ h with h' | h'
          · rcases sfin_processLinesLoop h' with h'' | h''
            · exact Or.inl h''
            · rw [hsplit]
              exact Or.inr (List.mem_append_left _ h'')
          · rw [hsplit]
            exact Or.inr (List.mem_append_right _ h')

/-- Claim C4: the completion callback is invoked only when a literal
`data: [DONE]` line was decoded before end-of-stream; a stream that ends (or
is aborted, under any abort-poll behaviour) without such a complete line
never invokes it. -/
theorem c4_complete_requires_done (parse : Str → Option ApiPayload)
    (env : StreamEnv) (chunks : List Str) (content : Str)
    (reasoning : Option Str) (tm : Option Timings) (tc : Option (List ToolCall))
    (h : StreamEvent.complete content reasoning tm tc
        ∈ (runStream parse env chunks).st.events) :
    doneLine ∈ sseLines chunks := by
  simp only [runStream, dateNow, pollAborted] at h
  by_cases hab : env.polls (loopChunks parse env
      { st := { startTime := env.now 0 }, clock := 1 } [] chunks).clock = true
  · rw [if_pos hab] at h
    exfalso
    have hnil : ((loopChunks parse env
        { st := { startTime := env.now 0 }, clock := 1 } [] chunks).st.events).filter
          isCompleteEvent = [] := by
      rw [filtC_loopChunks]
      rfl
    exact (List.filter_eq_nil_iff.mp hnil) _ h rfl
  · rw [if_neg hab] at h
    by_cases hfin : (loopChunks parse env
        { st := { startTime := env.now 0 }, clock := 1 } [] chunks).st.streamFinished
        = true
    · rcases sfin_loopChunks chunks _ [] hfin with h' | h'
      · simp at h'
      · simpa [sseLines] using h'
    · rw [if_neg hfin] at h
      exfalso
      have hnil : ((loopChunks parse env
          { st := { startTime := env.now 0 }, clock := 1 } [] chunks).st.events).filter
            isCompleteEvent = [] := by
        rw [filtC_loopChunks]
        rfl
      exact (List.filter_eq_nil_iff.mp hnil) _ h rfl

/-- Witness for C4: a stream consisting of the single read
`"data: [DONE]\n"` invokes the completion callback, and indeed decodes the
`data: [DONE]` line. -/
theorem c4_complete_requires_done_witness :
    StreamEvent.complete [] none none none
        ∈ (runStream (fun _ => none) noAbortEnv [str "data: [DONE]\n"]).st.events
  ∧ doneLine ∈ sseLines [str "data: [DONE]\n"] :=
  ⟨by decide,
   c4_complete_requires_done (fun _ => none) noAbortEnv [str "data: [DONE]\n"]
     [] none none none (by decide)⟩

end WebuiChat
